import Mathlib

/-!
Verification model of the AutoMix realtime DSP engine (Dugan-style
gain-sharing automatic microphone mixer).

The repository ships the engine behind a C FFI boundary
(`rust/automix-dsp/include/automix_dsp.h`); the Rust implementation files
are not part of this tree, so every definition below is modelled from the
natural-language specification of the engine (spec.md) and from the
declarations and tests that are present.  Audio samples are modelled as an
IEEE-754-style value that is either a finite rational or one of the
non-finite values NaN, +inf, -inf; all internal arithmetic is exact
rational arithmetic, and the irrational primitives of the audio path
(square root, base-10 logarithm, the exponential in the smoothing
coefficients) are modelled by computable rational surrogates that agree
with the exact functions on the inputs the claims exercise.
-/

namespace Automix

/-- Modelled from the spec: an IEEE-754 single-precision sample value as the
engine observes it, collapsed to the cases that matter for sanitization:
a finite value (carried exactly as a rational) or NaN, +infinity,
-infinity. -/
inductive FV where
  | num (x : ℚ)
  | nan
  | posInf
  | negInf
deriving DecidableEq, Repr

/-- A sample value is finite when it carries a rational. -/
def FV.isFinite : FV → Bool
  | .num _ => true
  | _ => false

/-- Modelled from the spec: `sanitize(x)` returns `x` if finite else `0.0`
(spec §4.8; also applied before squaring in the level detector, §4.1). -/
def sanitize : FV → ℚ
  | .num x => x
  | _ => 0

/-- An audio buffer as it crosses the FFI: channel index, then sample
index, to a sample value.  Indices outside the processed region are
simply never touched. -/
abbrev Buf := ℕ → ℕ → FV

/-- Integer Newton iteration for the floor square root, with structural
fuel so that the kernel can evaluate it on concrete inputs.  Stops when
the iteration no longer decreases. -/
def natSqrtA : ℕ → ℕ → ℕ → ℕ
  | 0, _, g => g
  | fuel + 1, n, g =>
    let g1 := (g + n / g) / 2
    if g1 < g then natSqrtA fuel n g1 else g

/-- Floor square root of a natural number (64 fuel steps cover every input
below 2^64 and far beyond). -/
def natSqrtM (n : ℕ) : ℕ := if n ≤ 1 then n else natSqrtA 64 n n

/-- Modelled from the spec: the square root used on the audio path (f32
sqrt in the engine), as a fixed-point rational approximation with six
decimal digits, exact on perfect squares. -/
def sqrtQ (x : ℚ) : ℚ :=
  if x ≤ 0 then 0
  else ((natSqrtM (x.num.toNat * 10 ^ 12 / x.den) : ℚ)) / 10 ^ 6

/-- Floor base-10 logarithm of a natural number with structural fuel. -/
def natLog10A : ℕ → ℕ → ℕ
  | 0, _ => 0
  | fuel + 1, n => if n < 10 then 0 else natLog10A fuel (n / 10) + 1

/-- Modelled from the spec: integer-precision floor of log10 on positive
rationals (the meters only need a finite, floored dB value, §4.9). -/
def log10Q (x : ℚ) : ℤ :=
  if 1 ≤ x then (natLog10A 64 x.floor.toNat : ℤ)
  else -(natLog10A 64 (1 / x).floor.toNat : ℤ) - 1

/-- Modelled from the spec: amplitude to decibels, `20*log10`, floored at
-120 dB, and -120 dB for non-positive amplitudes (spec §4.9). -/
def ampToDb (x : ℚ) : ℚ :=
  if x ≤ 0 then -120 else max (-120) (20 * (log10Q x : ℚ))

/-- Modelled from the spec: smoothing coefficient `alpha = 1 - exp(-1/(tau*fs))`
with `tau = ms/1000` (spec §4.7); the exponential is modelled by the
first-order Pade surrogate `x/(1+x)` for `1 - exp(-x)`, which lands in
`[0,1)` for nonnegative arguments. -/
def alphaFromMs (ms fs : ℚ) : ℚ :=
  let x := 1000 / (ms * fs)
  x / (1 + x)

/-- Modelled from the spec: activity threshold multiplier T (about 2,
i.e. ~6 dB over the floor, spec §4.3). -/
def thresholdT : ℚ := 2

/-- Modelled from the spec: lower bound for the noise-floor estimate
(about -120 dBFS linear, spec §4.2). -/
def floorMin : ℚ := 1 / 1000000

/-- Modelled from the spec: the epsilon against which the gain-sharing
denominator is compared before division (spec §4.5, §9 numeric guards). -/
def epsDenom : ℚ := 1 / 1000000

/-- Modelled from the spec: the GainSharer (spec §4.5).  Over the active
set A (the channels below `n` with `active`), compute
`denom = sum over A of rms*weight`; if `denom > eps` each active channel
gets `rms*weight/denom`, otherwise gain is distributed in proportion to
weight alone; inactive channels get 0, bypassed channels always get 1.
The equal-distribution division is guarded against a zero weight sum
(spec §9 numeric guards), yielding zero targets in that degenerate case. -/
def gainShare (n : ℕ) (weight rmsEff : ℕ → ℚ) (active bypass : ℕ → Bool) : ℕ → ℚ :=
  let actList := (List.range n).filter (fun ch => active ch)
  let denom := (actList.map (fun j => rmsEff j * weight j)).sum
  let wsum := (actList.map weight).sum
  fun ch =>
    if bypass ch then 1
    else if active ch then
      if epsDenom < denom then rmsEff ch * weight ch / denom
      else if 0 < wsum then weight ch / wsum
      else 0
    else 0

/-- Modelled from the spec: the NOM factor `1/sqrt(NOM)` (spec §4.6),
using the rational square-root surrogate of the audio path. -/
def nomFactorQ (n : ℕ) : ℚ := 1 / sqrtQ (n : ℚ)

/-- Modelled from the spec: the NomAttenuator (spec §4.6).  When enabled
and at least one mic is open, every active channel's gain target is
multiplied by `nomFactorQ NOM`; otherwise targets pass through
unchanged. -/
def applyNom (enabled : Bool) (nom : ℕ) (active : ℕ → Bool) (target : ℕ → ℚ) : ℕ → ℚ :=
  fun ch =>
    if enabled = true ∧ 1 ≤ nom ∧ active ch = true then nomFactorQ nom * target ch
    else target ch

/-- Modelled from the spec: one step of the one-pole gain smoother,
`g <- g + alpha * (target - g)` (spec §4.7). -/
def onePole (alpha target g : ℚ) : ℚ := g + alpha * (target - g)

/-- Modelled from the spec: mutable per-channel parameters — weight in
`[0,1]`, mute, solo, bypass (spec §3, Engine). -/
structure ChannelParams where
  weight : ℚ
  mute : Bool
  solo : Bool
  bypass : Bool
deriving Repr

/-- Modelled from the spec: PerChannelState — the sliding-window ring of
squared samples with its running sum and ring index, the noise-floor
estimate, and the current smoothed gain (spec §3). -/
structure ChannelState where
  window : ℕ → ℚ
  sumSq : ℚ
  ringIndex : ℕ
  noiseFloor : ℚ
  currentGain : ℚ

/-- Modelled from the header `AutomixChannelMetering`: per-channel meter
snapshot fields (all dB values floored at -120). -/
structure ChannelMetering where
  input_rms_db : ℚ
  gain_db : ℚ
  output_rms_db : ℚ
  noise_floor_db : ℚ
  is_active : Bool
deriving Repr

/-- Modelled from the header `AutomixGlobalMetering`: NOM count and NOM
attenuation in dB. -/
structure GlobalMetering where
  nom_count : ℚ
  nom_attenuation_db : ℚ
deriving Repr

/-- Modelled from the spec: the Engine — immutable (N, fs, Bmax) plus the
window length, the mutable parameters, per-channel DSP state, the hold
tracker, and the published meter snapshot (spec §3). -/
structure Engine where
  numChannels : ℕ
  sampleRate : ℚ
  maxBlockSize : ℕ
  windowLen : ℕ
  attackMs : ℚ
  releaseMs : ℚ
  holdMs : ℚ
  nomEnabled : Bool
  globalBypass : Bool
  chParams : ℕ → ChannelParams
  chState : ℕ → ChannelState
  holdChannel : Option ℕ
  samplesSinceActive : ℕ
  meters : ℕ → ChannelMetering
  globalMeters : GlobalMetering

/-- Modelled from the spec: per-sample sliding-window update of the level
detector (spec §4.1): subtract the ejected square, add the new square,
clamp the running sum at zero against roundoff drift, advance the ring
index. -/
def levelStep (W : ℕ) (cs : ChannelState) (x : ℚ) : ChannelState :=
  let sq := x * x
  let idx := cs.ringIndex % W
  { cs with
      window := Function.update cs.window idx sq
      sumSq := max 0 (cs.sumSq - cs.window idx + sq)
      ringIndex := (cs.ringIndex + 1) % W }

/-- Modelled from the spec: a freshly constructed engine — default
parameters (weight 1, nothing muted/soloed/bypassed, 10 ms attack, 200 ms
release, 500 ms hold, NOM attenuation enabled, global bypass off), zeroed
DSP state, noise floors at the -120 dBFS bound, meters at the floor, and
a ~20 ms sliding window (spec §3 Lifecycle, §4.1, §4.4). -/
def Engine.init (n : ℕ) (fs : ℚ) (maxBlock : ℕ) : Engine :=
  { numChannels := n
    sampleRate := fs
    maxBlockSize := maxBlock
    windowLen := max 1 (fs * 20 / 1000).floor.toNat
    attackMs := 10
    releaseMs := 200
    holdMs := 500
    nomEnabled := true
    globalBypass := false
    chParams := fun _ => { weight := 1, mute := false, solo := false, bypass := false }
    chState := fun _ =>
      { window := fun _ => 0, sumSq := 0, ringIndex := 0
        noiseFloor := floorMin, currentGain := 0 }
    holdChannel := none
    samplesSinceActive := 0
    meters := fun _ =>
      { input_rms_db := -120, gain_db := -120, output_rms_db := -120
        noise_floor_db := -120, is_active := false }
    globalMeters := { nom_count := 0, nom_attenuation_db := 0 } }

/-- Modelled from the spec: one block of the nine-phase pipeline
(spec §2, §4).  If global bypass is set, phases 1-8 are skipped and both
engine and buffer are returned untouched.  Otherwise: (1) sliding-window
RMS on sanitized input, (2) noise-floor tracking, (3) activity detection
with mute/solo/bypass rules, (4) last-mic-hold, (5) gain sharing,
(6) NOM attenuation, (7) per-sample one-pole smoothing, (8) in-place
application `out = sanitize(in) * ramp`, (9) meter publication.  Only the
first `min numCh numChannels` channel buffers are touched — the engine
owns exactly `numChannels` channel states. -/
def Engine.processBlock (en : Engine) (b : Buf) (numCh numSamp : ℕ) : Engine × Buf :=
  if en.globalBypass then (en, b) else
  let effCh := min numCh en.numChannels
  let B := numSamp
  let W := en.windowLen
  let alphaA := alphaFromMs en.attackMs en.sampleRate
  let alphaR := alphaFromMs en.releaseMs en.sampleRate
  let alphaFast := alphaFromMs 50 en.sampleRate
  let alphaSlow := alphaFromMs 5000 en.sampleRate
  let holdSamples := (en.sampleRate * en.holdMs / 1000).floor.toNat
  let st1 : ℕ → ChannelState := fun ch =>
    if ch < effCh then
      (List.range B).foldl (fun cs k => levelStep W cs (sanitize (b ch k))) (en.chState ch)
    else en.chState ch
  let rms : ℕ → ℚ := fun ch => sqrtQ ((st1 ch).sumSq / (W : ℚ))
  let nf : ℕ → ℚ := fun ch =>
    if ch < effCh then
      let prev := (st1 ch).noiseFloor
      let alpha := if rms ch < prev then alphaFast else alphaSlow
      max floorMin (prev + alpha * (rms ch - prev))
    else (st1 ch).noiseFloor
  let anySolo := (List.range en.numChannels).any (fun ch => (en.chParams ch).solo)
  let rawActive : ℕ → Bool := fun ch =>
    decide (ch < effCh) && !(en.chParams ch).bypass && !(en.chParams ch).mute &&
      (!anySolo || (en.chParams ch).solo) && decide (nf ch * thresholdT < rms ch)
  let anyRawActive := (List.range effCh).any rawActive
  let held : ℕ → Bool := fun ch =>
    rawActive ch ||
      (!anyRawActive && decide (en.samplesSinceActive < holdSamples) &&
        decide (en.holdChannel = some ch) && decide (ch < effCh) &&
        !(en.chParams ch).bypass && !(en.chParams ch).mute)
  let rmsEff : ℕ → ℚ := fun ch =>
    if held ch && !rawActive ch then max (rms ch) (nf ch) else rms ch
  let rawTarget :=
    gainShare effCh (fun ch => (en.chParams ch).weight) rmsEff held
      (fun ch => (en.chParams ch).bypass)
  let nom := ((List.range effCh).filter (fun ch => held ch)).length
  let target := applyNom en.nomEnabled nom held rawTarget
  let gStart : ℕ → ℚ := fun ch => (en.chState ch).currentGain
  let alphaCh : ℕ → ℚ := fun ch => if gStart ch < target ch then alphaA else alphaR
  let ramp : ℕ → ℕ → ℚ := fun ch k => (onePole (alphaCh ch) (target ch))^[k + 1] (gStart ch)
  let gEnd : ℕ → ℚ := fun ch =>
    if ch < effCh then (onePole (alphaCh ch) (target ch))^[B] (gStart ch) else gStart ch
  let outBuf : Buf := fun ch k =>
    if ch < effCh ∧ k < B then FV.num (sanitize (b ch k) * ramp ch k) else b ch k
  let outRms : ℕ → ℚ := fun ch =>
    sqrtQ ((((List.range B).map (fun k =>
      let y := sanitize (b ch k) * ramp ch k
      y * y)).sum) / (B : ℚ))
  let newMeters : ℕ → ChannelMetering := fun ch =>
    if ch < effCh then
      { input_rms_db := ampToDb (rms ch)
        gain_db := ampToDb (gEnd ch)
        output_rms_db := ampToDb (outRms ch)
        noise_floor_db := ampToDb (nf ch)
        is_active := held ch }
    else en.meters ch
  let newGlobal : GlobalMetering :=
    { nom_count := (nom : ℚ)
      nom_attenuation_db :=
        if en.nomEnabled = true ∧ 1 ≤ nom then ampToDb (nomFactorQ nom) else 0 }
  let newState : ℕ → ChannelState := fun ch =>
    if ch < effCh then { st1 ch with noiseFloor := nf ch, currentGain := gEnd ch }
    else en.chState ch
  ({ en with
      chState := newState
      holdChannel :=
        if anyRawActive then ((List.range effCh).filter (fun ch => rawActive ch)).head?
        else en.holdChannel
      samplesSinceActive := if anyRawActive then 0 else en.samplesSinceActive + B
      meters := newMeters
      globalMeters := newGlobal }, outBuf)

/-- Modelled from the header: `AUTOMIX_MAX_CHANNELS = 32`. -/
def maxChannelsC : ℕ := 32

/-- Modelled from the spec: `create` clamps the channel count to
`[1, 32]` (spec §6). -/
def clampChannels (n : ℕ) : ℕ := min (max n 1) maxChannelsC

/-- Modelled from the spec: `automix_create` — builds an engine with the
clamped channel count; a null handle is returned only when allocation
fails, which the model abstracts as the `allocOk` flag (spec §6, §7). -/
def automix_create (numChannels : ℕ) (fs : ℚ) (maxBlock : ℕ) (allocOk : Bool) :
    Option Engine :=
  if allocOk then some (Engine.init (clampChannels numChannels) fs maxBlock) else none

/-- Modelled from the spec: `automix_process` — null engine or null buffer
pointer is a silent no-op, otherwise one block of the pipeline executes
in place (spec §6, §7). -/
def automix_process (e : Option Engine) (b : Option Buf) (numCh numSamp : ℕ) :
    Option Engine × Option Buf :=
  match e, b with
  | some en, some buf =>
    (some (en.processBlock buf numCh numSamp).1, some (en.processBlock buf numCh numSamp).2)
  | _, _ => (e, b)

/-- Helper for the per-channel setters: null engine and out-of-range
channel indices are silent no-ops (spec §6, §7). -/
def setChannelParam (e : Option Engine) (ch : ℕ) (f : ChannelParams → ChannelParams) :
    Option Engine :=
  match e with
  | none => none
  | some en =>
    if ch < en.numChannels then
      some { en with chParams := Function.update en.chParams ch (f (en.chParams ch)) }
    else some en

/-- Modelled from the spec: `automix_set_channel_weight`, the weight
clamped into `[0,1]` (spec §6, §7 out-of-range values clamped). -/
def automix_set_channel_weight (e : Option Engine) (ch : ℕ) (w : ℚ) : Option Engine :=
  setChannelParam e ch (fun p => { p with weight := max 0 (min 1 w) })

/-- Modelled from the spec: `automix_set_channel_mute`. -/
def automix_set_channel_mute (e : Option Engine) (ch : ℕ) (m : Bool) : Option Engine :=
  setChannelParam e ch (fun p => { p with mute := m })

/-- Modelled from the spec: `automix_set_channel_solo`. -/
def automix_set_channel_solo (e : Option Engine) (ch : ℕ) (s : Bool) : Option Engine :=
  setChannelParam e ch (fun p => { p with solo := s })

/-- Modelled from the spec: `automix_set_channel_bypass`. -/
def automix_set_channel_bypass (e : Option Engine) (ch : ℕ) (bp : Bool) : Option Engine :=
  setChannelParam e ch (fun p => { p with bypass := bp })

/-- Modelled from the spec: `automix_set_global_bypass` (null engine is a
no-op). -/
def automix_set_global_bypass (e : Option Engine) (bp : Bool) : Option Engine :=
  match e with
  | none => none
  | some en => some { en with globalBypass := bp }

/-- Modelled from the spec: `automix_set_attack_ms`, clamped to at least
0.1 ms (spec §6). -/
def automix_set_attack_ms (e : Option Engine) (ms : ℚ) : Option Engine :=
  match e with
  | none => none
  | some en => some { en with attackMs := max (1 / 10) ms }

/-- Modelled from the spec: `automix_set_release_ms`, clamped to at least
1 ms (spec §6). -/
def automix_set_release_ms (e : Option Engine) (ms : ℚ) : Option Engine :=
  match e with
  | none => none
  | some en => some { en with releaseMs := max 1 ms }

/-- Modelled from the spec: `automix_set_hold_time_ms`, clamped to at
least 0 (spec §6). -/
def automix_set_hold_time_ms (e : Option Engine) (ms : ℚ) : Option Engine :=
  match e with
  | none => none
  | some en => some { en with holdMs := max 0 ms }

/-- Modelled from the spec: `automix_set_nom_atten_enabled`. -/
def automix_set_nom_atten_enabled (e : Option Engine) (enabled : Bool) : Option Engine :=
  match e with
  | none => none
  | some en => some { en with nomEnabled := enabled }

/-- Modelled from the header: `automix_get_channel_metering` — returns
`true` plus the snapshot only when the engine is non-null, the output
pointer (modelled as the `outNull` flag) is non-null, and the channel is
in range; otherwise `false` and the out struct is not filled. -/
def automix_get_channel_metering (e : Option Engine) (ch : ℕ) (outNull : Bool) :
    Bool × Option ChannelMetering :=
  match e with
  | none => (false, none)
  | some en =>
    if outNull then (false, none)
    else if ch < en.numChannels then (true, some (en.meters ch))
    else (false, none)

/-- Modelled from the header: `automix_get_global_metering` — `false`
when the engine or out pointer is null, otherwise the global snapshot. -/
def automix_get_global_metering (e : Option Engine) (outNull : Bool) :
    Bool × Option GlobalMetering :=
  match e with
  | none => (false, none)
  | some en => if outNull then (false, none) else (true, some en.globalMeters)

/-- Modelled from the header: `automix_get_all_channel_metering` — writes
`min N capacity` per-channel snapshots starting at slot 0 and returns the
count; a null engine or null out array writes nothing and returns 0. -/
def automix_get_all_channel_metering (e : Option Engine) (outNull : Bool) (cap : ℕ) :
    List ChannelMetering × ℕ :=
  match e with
  | none => ([], 0)
  | some en =>
    if outNull then ([], 0)
    else
      let n := min en.numChannels cap
      ((List.range n).map en.meters, n)

/-- Every dB value the meters publish is at least the -120 dB floor. -/
theorem neg120_le_ampToDb (x : ℚ) : -120 ≤ ampToDb x := by
  unfold ampToDb
  split
  · exact le_refl _
  · exact le_max_left _ _

/-- Dividing each summand afterwards is the same as dividing the sum. -/
theorem list_sum_div (l : List ℕ) (f : ℕ → ℚ) (d : ℚ) :
    (l.map fun i => f i / d).sum = (l.map f).sum / d := by
  induction l with
  | nil => simp
  | cons a t ih => simp [ih, add_div]

/-- A sample that is not finite sanitizes to zero. -/
theorem sanitize_eq_zero_of_not_finite (v : FV) (h : v.isFinite = false) :
    sanitize v = 0 := by
  cases v <;> simp_all [FV.isFinite, sanitize]

/-- Under global bypass the whole block pipeline is skipped: engine and
buffer come back untouched. -/
theorem processBlock_bypass (en : Engine) (b : Buf) (nCh nS : ℕ)
    (hbp : en.globalBypass = true) :
    en.processBlock b nCh nS = (en, b) := by
  simp [Engine.processBlock, hbp]

/-- Inside the processed region the pipeline always writes a finite
sample: phase 8 stores `sanitize(in) * ramp`, a rational. -/
theorem processBlock_out_finite (en : Engine) (b : Buf) (nCh nS ch k : ℕ)
    (hbp : en.globalBypass = false) (hch : ch < min nCh en.numChannels) (hk : k < nS) :
    ((en.processBlock b nCh nS).2 ch k).isFinite = true := by
  have h : ch < min nCh en.numChannels ∧ k < nS := ⟨hch, hk⟩
  simp only [Engine.processBlock, hbp]
  simp only [Bool.false_eq_true, if_false, h, and_self, if_true]
  rfl

/-- A sample whose sanitized value is zero (in particular NaN or an
infinity) comes out of the block as exactly zero. -/
theorem processBlock_out_sanitized (en : Engine) (b : Buf) (nCh nS ch k : ℕ)
    (hbp : en.globalBypass = false) (hch : ch < min nCh en.numChannels) (hk : k < nS)
    (hz : sanitize (b ch k) = 0) :
    (en.processBlock b nCh nS).2 ch k = FV.num 0 := by
  have h : ch < min nCh en.numChannels ∧ k < nS := ⟨hch, hk⟩
  simp only [Engine.processBlock, hbp]
  simp only [Bool.false_eq_true, if_false, h, and_self, if_true]
  simp [hz]

/-- Channels the engine does not own are never written. -/
theorem processBlock_untouched (en : Engine) (b : Buf) (nCh nS ch k : ℕ)
    (hch : en.numChannels ≤ ch) :
    (en.processBlock b nCh nS).2 ch k = b ch k := by
  have h : ¬(ch < min nCh en.numChannels ∧ k < nS) := by
    rintro ⟨h1, -⟩
    exact absurd (lt_of_lt_of_le h1 (min_le_right _ _)) (not_lt.mpr hch)
  by_cases hbp : en.globalBypass
  · simp [Engine.processBlock, hbp]
  · rw [Bool.not_eq_true] at hbp
    simp only [Engine.processBlock, hbp, Bool.false_eq_true, if_false]
    exact if_neg h

/-- Processing never changes the channel count. -/
theorem processBlock_numChannels (en : Engine) (b : Buf) (nCh nS : ℕ) :
    (en.processBlock b nCh nS).1.numChannels = en.numChannels := by
  by_cases hbp : en.globalBypass
  · simp [Engine.processBlock, hbp]
  · rw [Bool.not_eq_true] at hbp
    simp only [Engine.processBlock, hbp, Bool.false_eq_true, if_false]

/-- The per-channel meters published for a processed channel are all dB
values floored at -120 (hence finite). -/
theorem processBlock_meters_bounded (en : Engine) (b : Buf) (nCh nS ch : ℕ)
    (hbp : en.globalBypass = false) (hch : ch < min nCh en.numChannels) :
    -120 ≤ ((en.processBlock b nCh nS).1.meters ch).input_rms_db ∧
    -120 ≤ ((en.processBlock b nCh nS).1.meters ch).gain_db ∧
    -120 ≤ ((en.processBlock b nCh nS).1.meters ch).output_rms_db ∧
    -120 ≤ ((en.processBlock b nCh nS).1.meters ch).noise_floor_db := by
  simp only [Engine.processBlock, hbp, Bool.false_eq_true, if_false, hch, if_true]
  exact ⟨neg120_le_ampToDb _, neg120_le_ampToDb _, neg120_le_ampToDb _, neg120_le_ampToDb _⟩

/-- The global meters published by a block are a nonnegative NOM count
and a floored NOM attenuation (hence finite). -/
theorem processBlock_global_bounded (en : Engine) (b : Buf) (nCh nS : ℕ)
    (hbp : en.globalBypass = false) :
    0 ≤ (en.processBlock b nCh nS).1.globalMeters.nom_count ∧
    -120 ≤ (en.processBlock b nCh nS).1.globalMeters.nom_attenuation_db := by
  simp only [Engine.processBlock, hbp, Bool.false_eq_true, if_false]
  constructor
  · exact Nat.cast_nonneg _
  · split
    · exact neg120_le_ampToDb _
    · norm_num

/-- Gain conservation inside the GainSharer: over the active set the
targets sum to exactly one, provided the active channels' total weight is
positive (no channel bypassed). -/
theorem gainShare_sum (n : ℕ) (weight rmsEff : ℕ → ℚ) (active bypass : ℕ → Bool)
    (hbp : ∀ ch, bypass ch = false)
    (hw : 0 < (((List.range n).filter (fun ch => active ch)).map weight).sum) :
    (((List.range n).filter (fun ch => active ch)).map
      (gainShare n weight rmsEff active bypass)).sum = 1 := by
  have hact : ∀ ch ∈ (List.range n).filter (fun ch => active ch), active ch = true := by
    intro ch hch
    simpa using (List.mem_filter.mp hch).2
  by_cases hcase :
      epsDenom <
        (((List.range n).filter (fun ch => active ch)).map (fun j => rmsEff j * weight j)).sum
  · have hmap :
        ((List.range n).filter (fun ch => active ch)).map
            (gainShare n weight rmsEff active bypass) =
          ((List.range n).filter (fun ch => active ch)).map
            (fun ch =>
              rmsEff ch * weight ch /
                (((List.range n).filter (fun ch => active ch)).map
                  (fun j => rmsEff j * weight j)).sum) := by
      apply List.map_congr_left
      intro ch hch
      simp only [gainShare, hbp ch, Bool.false_eq_true, if_false, hact ch hch, if_true, hcase]
    rw [hmap, list_sum_div]
    exact div_self (ne_of_gt (lt_trans (by norm_num [epsDenom]) hcase))
  · have hmap :
        ((List.range n).filter (fun ch => active ch)).map
            (gainShare n weight rmsEff active bypass) =
          ((List.range n).filter (fun ch => active ch)).map
            (fun ch =>
              weight ch / (((List.range n).filter (fun ch => active ch)).map weight).sum) := by
      apply List.map_congr_left
      intro ch hch
      simp only [gainShare, hbp ch, Bool.false_eq_true, if_false, hact ch hch, if_true, hcase,
        hw]
    rw [hmap, list_sum_div]
    exact div_self (ne_of_gt hw)

/-- The spec's NOM formula: `10^(-10*log10(NOM)/20)` is `1/sqrt(NOM)`. -/
theorem nomFormula_eq_inv_sqrt (n : ℕ) (hn : 1 ≤ n) :
    (10 : ℝ) ^ (-(10 * Real.logb 10 (n : ℝ)) / 20) = 1 / Real.sqrt (n : ℝ) := by
  have hn0 : (0 : ℝ) < n := by exact_mod_cast hn
  have h1 : -(10 * Real.logb 10 (n : ℝ)) / 20 = Real.logb 10 (n : ℝ) * (-(1 / 2)) := by
    ring
  rw [h1, Real.rpow_mul (by norm_num : (0 : ℝ) ≤ 10),
    Real.rpow_logb (by norm_num) (by norm_num) hn0,
    Real.rpow_neg hn0.le, Real.sqrt_eq_rpow]
  norm_num

/-- The rational NOM factor of the audio-path model is exact at the
spec's reference points: unity for one open mic. -/
theorem nomFactorQ_one : nomFactorQ 1 = 1 := by
  have h1 : natSqrtM 1000000000000 = 1000000 := by decide
  simp [nomFactorQ, sqrtQ, Rat.num_natCast, Rat.den_natCast]
  norm_num [h1]

/-- The rational NOM factor of the audio-path model is exact at the
spec's reference points: one half (-6 dB) for four open mics. -/
theorem nomFactorQ_four : nomFactorQ 4 = 1 / 2 := by
  have h4 : natSqrtM 4000000000000 = 2000000 := by decide
  simp [nomFactorQ, sqrtQ, Rat.num_natCast, Rat.den_natCast]
  norm_num [h4]

/-- Out-of-range channel indices leave the engine untouched in every
per-channel setter. -/
theorem setChannelParam_oob (en : Engine) (ch : ℕ) (f : ChannelParams → ChannelParams)
    (h : en.numChannels ≤ ch) : setChannelParam (some en) ch f = some en := by
  simp [setChannelParam, not_lt.mpr h]

/-- Claim C1 (amended): gain conservation — for a block with a non-empty
active set, no channel bypassed and NOM attenuation disabled, the
GainSharer's targets over the active set sum to exactly 1, provided the
active channels' total weight is positive (the amendment: with an
all-zero-weight active set both sharing branches are degenerate and the
targets are all zero).  The second conjunct records that disabling NOM
attenuation leaves the targets unchanged, so this sum is the block's
final target sum. -/
theorem claim_gain_conservation (n : ℕ) (weight rmsEff : ℕ → ℚ) (active bypass : ℕ → Bool)
    (hbp : ∀ ch, bypass ch = false)
    (hw : 0 < (((List.range n).filter (fun ch => active ch)).map weight).sum) :
    (((List.range n).filter (fun ch => active ch)).map
      (gainShare n weight rmsEff active bypass)).sum = 1 ∧
    (∀ (nom : ℕ) (act : ℕ → Bool) (t : ℕ → ℚ) (ch : ℕ),
      applyNom false nom act t ch = t ch) := by
  refine ⟨gainShare_sum n weight rmsEff active bypass hbp hw, ?_⟩
  intro nom act t ch
  simp [applyNom]

/-- Claim C1 counterexample: one channel, active (activity does not
depend on weight), not bypassed, with the legal weight 0 — the gain
targets sum to 0, not 1, refuting the claim as stated. -/
theorem claim_gain_conservation_cex :
    (∀ ch, (fun _ : ℕ => false) ch = false) ∧
    ((List.range 1).filter (fun ch => (fun _ : ℕ => true) ch)) ≠ [] ∧
    (((List.range 1).filter (fun ch => (fun _ : ℕ => true) ch)).map
      (gainShare 1 (fun _ => (0 : ℚ)) (fun _ => (1 : ℚ)) (fun _ => true) (fun _ => false))).sum
      ≠ 1 := by
  refine ⟨fun _ => rfl, by decide, ?_⟩
  norm_num [gainShare, epsDenom]

/-- Claim C1 witness: a single active unit-weight channel receives the
whole unit of gain. -/
theorem claim_gain_conservation_witness :
    0 < (((List.range 1).filter (fun ch => (fun _ : ℕ => true) ch)).map
          (fun _ => (1 : ℚ))).sum ∧
    (((List.range 1).filter (fun ch => (fun _ : ℕ => true) ch)).map
      (gainShare 1 (fun _ => (1 : ℚ)) (fun _ => (1 : ℚ)) (fun _ => true) (fun _ => false))).sum
      = 1 :=
  ⟨by norm_num, (claim_gain_conservation 1 (fun _ => 1) (fun _ => 1) (fun _ => true)
      (fun _ => false) (fun _ => rfl) (by norm_num)).1⟩

/-- Claim C2 (amended): finiteness under adversarial input — with global
bypass off, every sample the block writes (channel below
`min num_channels N`, sample below `num_samples`) is finite; a
non-finite input sample is replaced by zero before detection and before
multiplication, so it comes out as exactly zero; the per-channel meters
published for the processed channels and the global meters are floored
at -120 dB (finite), and the metering readers return exactly those
published records. -/
theorem claim_finiteness_adversarial (en : Engine) (b : Buf) (nCh nS ch k : ℕ)
    (hbp : en.globalBypass = false) (hch : ch < min nCh en.numChannels) (hk : k < nS) :
    (((automix_process (some en) (some b) nCh nS).2.getD (fun _ _ => FV.nan)) ch k).isFinite
        = true ∧
    ((b ch k).isFinite = false →
      ((automix_process (some en) (some b) nCh nS).2.getD (fun _ _ => FV.nan)) ch k
        = FV.num 0) ∧
    -120 ≤ (((automix_process (some en) (some b) nCh nS).1.getD en).meters ch).input_rms_db ∧
    -120 ≤ (((automix_process (some en) (some b) nCh nS).1.getD en).meters ch).gain_db ∧
    -120 ≤ (((automix_process (some en) (some b) nCh nS).1.getD en).meters ch).output_rms_db ∧
    -120 ≤ (((automix_process (some en) (some b) nCh nS).1.getD en).meters ch).noise_floor_db ∧
    0 ≤ ((automix_process (some en) (some b) nCh nS).1.getD en).globalMeters.nom_count ∧
    -120 ≤
      ((automix_process (some en) (some b) nCh nS).1.getD en).globalMeters.nom_attenuation_db ∧
    automix_get_channel_metering (some ((automix_process (some en) (some b) nCh nS).1.getD en))
        ch false
      = (true, some (((automix_process (some en) (some b) nCh nS).1.getD en).meters ch)) ∧
    automix_get_global_metering (some ((automix_process (some en) (some b) nCh nS).1.getD en))
        false
      = (true, some (((automix_process (some en) (some b) nCh nS).1.getD en).globalMeters)) := by
  unfold automix_process
  simp only [Option.getD_some]
  have hmb := processBlock_meters_bounded en b nCh nS ch hbp hch
  have hgb := processBlock_global_bounded en b nCh nS hbp
  have hchN : ch < (en.processBlock b nCh nS).1.numChannels := by
    rw [processBlock_numChannels]
    exact lt_of_lt_of_le hch (min_le_right _ _)
  refine ⟨processBlock_out_finite en b nCh nS ch k hbp hch hk, ?_,
    hmb.1, hmb.2.1, hmb.2.2.1, hmb.2.2.2, hgb.1, hgb.2, ?_, rfl⟩
  · intro hnf
    exact processBlock_out_sanitized en b nCh nS ch k hbp hch hk
      (sanitize_eq_zero_of_not_finite _ hnf)
  · simp [automix_get_channel_metering, hchN]

/-- Claim C2 counterexample: with global bypass on — a configuration the
claim as stated does not exclude — an all-NaN input block passes through
`automix_process` untouched, so the output sample at channel 0, sample 0
is not finite. -/
theorem claim_finiteness_adversarial_cex :
    (((automix_process (automix_set_global_bypass (automix_create 2 48000 256 true) true)
        (some (fun _ _ => FV.nan)) 2 256).2.getD (fun _ _ => FV.num 0)) 0 0).isFinite
      = false := by
  rfl

/-- Claim C2 witness: a freshly created engine fed a NaN block produces a
finite sample at channel 0, sample 0. -/
theorem claim_finiteness_adversarial_witness :
    (Engine.init 1 48000 256).globalBypass = false ∧
    (((automix_process (some (Engine.init 1 48000 256)) (some (fun _ _ => FV.nan)) 1 1).2.getD
        (fun _ _ => FV.nan)) 0 0).isFinite = true :=
  ⟨rfl, (claim_finiteness_adversarial (Engine.init 1 48000 256) (fun _ _ => FV.nan) 1 1 0 0 rfl
      (by decide) (by decide)).1⟩

/-- Claim C3: global bypass identity — with global bypass set,
`automix_process` returns engine and buffer exactly as given, for every
input buffer and block size. -/
theorem claim_global_bypass_identity (en : Engine) (b : Buf) (nCh nS : ℕ)
    (hbp : en.globalBypass = true) :
    automix_process (some en) (some b) nCh nS = (some en, some b) := by
  unfold automix_process
  simp [processBlock_bypass en b nCh nS hbp]

/-- Claim C3 witness: a bypassed two-channel engine leaves a constant
buffer untouched. -/
theorem claim_global_bypass_identity_witness :
    ({ Engine.init 2 48000 256 with globalBypass := true } : Engine).globalBypass = true ∧
    automix_process (some { Engine.init 2 48000 256 with globalBypass := true })
        (some (fun _ _ => FV.num (1 / 2))) 2 256
      = (some { Engine.init 2 48000 256 with globalBypass := true },
          some (fun _ _ => FV.num (1 / 2))) :=
  ⟨rfl, claim_global_bypass_identity _ _ _ _ rfl⟩

/-- Claim C4: silence preservation — with global bypass off and any
parameter configuration, an all-zero block comes out all-zero, sample
for sample (phase 8 writes `sanitize(0) * ramp = 0` in the processed
region; channels the engine does not own are untouched and already
zero). -/
theorem claim_silence_preservation (en : Engine) (b : Buf) (nCh nS ch k : ℕ)
    (hbp : en.globalBypass = false)
    (hzero : ∀ ch' k', ch' < nCh → k' < nS → b ch' k' = FV.num 0)
    (hch : ch < nCh) (hk : k < nS) :
    ((automix_process (some en) (some b) nCh nS).2.getD (fun _ _ => FV.nan)) ch k
      = FV.num 0 := by
  unfold automix_process
  simp only [Option.getD_some]
  by_cases hlt : ch < min nCh en.numChannels
  · exact processBlock_out_sanitized en b nCh nS ch k hbp hlt hk
      (by rw [hzero ch k hch hk]; rfl)
  · have hge : en.numChannels ≤ ch := by
      have hmin := not_lt.mp hlt
      rcases min_choice nCh en.numChannels with heq | heq <;> omega
    rw [processBlock_untouched en b nCh nS ch k hge]
    exact hzero ch k hch hk

/-- Claim C4 witness: a fresh two-channel engine maps a zero block to a
zero sample at channel 0, sample 0. -/
theorem claim_silence_preservation_witness :
    (Engine.init 2 48000 256).globalBypass = false ∧
    ((automix_process (some (Engine.init 2 48000 256)) (some (fun _ _ => FV.num 0)) 2 8).2.getD
        (fun _ _ => FV.nan)) 0 0 = FV.num 0 :=
  ⟨rfl, claim_silence_preservation (Engine.init 2 48000 256) (fun _ _ => FV.num 0) 2 8 0 0 rfl
      (fun _ _ _ _ => rfl) (by decide) (by decide)⟩

/-- Claim C5: NOM attenuation — the spec's formula
`10^(-10*log10(NOM)/20)` equals `1/sqrt(NOM)` for `NOM >= 1`; the
audio-path model's rational NOM factor is exactly 1 at one open mic and
exactly 1/2 (-6 dB) at four open mics; with attenuation enabled every
active channel's target is multiplied by the factor, and with it
disabled every target is unchanged. -/
theorem claim_nom_attenuation :
    (∀ n : ℕ, 1 ≤ n →
      (10 : ℝ) ^ (-(10 * Real.logb 10 (n : ℝ)) / 20) = 1 / Real.sqrt (n : ℝ)) ∧
    nomFactorQ 1 = 1 ∧ nomFactorQ 4 = 1 / 2 ∧
    (∀ (nom : ℕ) (active : ℕ → Bool) (t : ℕ → ℚ) (ch : ℕ), 1 ≤ nom → active ch = true →
      applyNom true nom active t ch = nomFactorQ nom * t ch) ∧
    (∀ (nom : ℕ) (active : ℕ → Bool) (t : ℕ → ℚ) (ch : ℕ),
      applyNom false nom active t ch = t ch) := by
  refine ⟨nomFormula_eq_inv_sqrt, nomFactorQ_one, nomFactorQ_four, ?_, ?_⟩
  · intro nom active t ch h1 hact
    simp [applyNom, h1, hact]
  · intro nom active t ch
    simp [applyNom]

/-- Claim C5 witness: at four open mics the formula gives `1/sqrt 4` and
an active unit target is scaled by the NOM factor. -/
theorem claim_nom_attenuation_witness :
    (1 ≤ 4 ∧
      (10 : ℝ) ^ (-(10 * Real.logb 10 ((4 : ℕ) : ℝ)) / 20) = 1 / Real.sqrt ((4 : ℕ) : ℝ)) ∧
    applyNom true 4 (fun _ => true) (fun _ => (1 : ℚ)) 0 = nomFactorQ 4 * 1 :=
  ⟨⟨by norm_num, claim_nom_attenuation.1 4 (by norm_num)⟩,
    claim_nom_attenuation.2.2.2.1 4 (fun _ => true) (fun _ => 1) 0 (by norm_num) rfl⟩

/-- Claim C6: programmer-error no-ops — null engine handles make every
setter, `automix_process` and every metering reader a silent no-op; null
out pointers and out-of-range channel indices make the readers return
false/zero with nothing filled, and out-of-range channel indices leave
the engine unchanged in every per-channel setter. -/
theorem claim_programmer_error_noop :
    (∀ ch w, automix_set_channel_weight none ch w = none) ∧
    (∀ ch m, automix_set_channel_mute none ch m = none) ∧
    (∀ ch s, automix_set_channel_solo none ch s = none) ∧
    (∀ ch bp, automix_set_channel_bypass none ch bp = none) ∧
    (∀ bp, automix_set_global_bypass none bp = none) ∧
    (∀ ms, automix_set_attack_ms none ms = none) ∧
    (∀ ms, automix_set_release_ms none ms = none) ∧
    (∀ ms, automix_set_hold_time_ms none ms = none) ∧
    (∀ enb, automix_set_nom_atten_enabled none enb = none) ∧
    (∀ en ch w, en.numChannels ≤ ch →
      automix_set_channel_weight (some en) ch w = some en) ∧
    (∀ en ch m, en.numChannels ≤ ch →
      automix_set_channel_mute (some en) ch m = some en) ∧
    (∀ en ch s, en.numChannels ≤ ch →
      automix_set_channel_solo (some en) ch s = some en) ∧
    (∀ en ch bp, en.numChannels ≤ ch →
      automix_set_channel_bypass (some en) ch bp = some en) ∧
    (∀ b nCh nS, automix_process none b nCh nS = (none, b)) ∧
    (∀ en nCh nS, automix_process (some en) none nCh nS = (some en, none)) ∧
    (∀ ch onull, automix_get_channel_metering none ch onull = (false, none)) ∧
    (∀ en ch, automix_get_channel_metering (some en) ch true = (false, none)) ∧
    (∀ en ch, en.numChannels ≤ ch →
      automix_get_channel_metering (some en) ch false = (false, none)) ∧
    (∀ onull, automix_get_global_metering none onull = (false, none)) ∧
    (∀ en, automix_get_global_metering (some en) true = (false, none)) ∧
    (∀ onull cap, automix_get_all_channel_metering none onull cap = ([], 0)) ∧
    (∀ en cap, automix_get_all_channel_metering (some en) true cap = ([], 0)) := by
  refine ⟨fun ch w => rfl, fun ch m => rfl, fun ch s => rfl, fun ch bp => rfl,
    fun bp => rfl, fun ms => rfl, fun ms => rfl, fun ms => rfl, fun enb => rfl,
    fun en ch w h => setChannelParam_oob en ch _ h,
    fun en ch m h => setChannelParam_oob en ch _ h,
    fun en ch s h => setChannelParam_oob en ch _ h,
    fun en ch bp h => setChannelParam_oob en ch _ h,
    fun b nCh nS => by cases b <;> rfl,
    fun en nCh nS => rfl,
    fun ch onull => rfl,
    fun en ch => rfl,
    fun en ch h => by simp [automix_get_channel_metering, not_lt.mpr h],
    fun onull => rfl,
    fun en => rfl,
    fun onull cap => rfl,
    fun en cap => rfl⟩

/-- Claim C6 witness: channel 100 on a 4-channel engine is a silent no-op
for a setter and a failing read for the channel-metering reader. -/
theorem claim_programmer_error_noop_witness :
    (Engine.init 4 48000 256).numChannels ≤ 100 ∧
    automix_set_channel_weight (some (Engine.init 4 48000 256)) 100 (1 / 2)
      = some (Engine.init 4 48000 256) ∧
    automix_get_channel_metering (some (Engine.init 4 48000 256)) 100 false
      = (false, none) :=
  ⟨by decide,
    claim_programmer_error_noop.2.2.2.2.2.2.2.2.2.1 (Engine.init 4 48000 256) 100 (1 / 2)
      (by decide),
    claim_programmer_error_noop.2.2.2.2.2.2.2.2.2.2.2.2.2.2.2.2.2.1
      (Engine.init 4 48000 256) 100 (by decide)⟩

/-- Claim C7: bulk metering cap — with a live engine and a non-null out
array, `automix_get_all_channel_metering` writes exactly the first
`min N capacity` per-channel snapshots starting at slot 0 and returns
that count; a null engine or null out array writes nothing and returns
0. -/
theorem claim_bulk_metering_cap :
    (∀ en cap, automix_get_all_channel_metering (some en) false cap
      = ((List.range (min en.numChannels cap)).map en.meters, min en.numChannels cap)) ∧
    (∀ en cap, (automix_get_all_channel_metering (some en) false cap).1.length
      = min en.numChannels cap) ∧
    (∀ onull cap, automix_get_all_channel_metering none onull cap = ([], 0)) ∧
    (∀ en cap, automix_get_all_channel_metering (some en) true cap = ([], 0)) :=
  ⟨fun en cap => rfl,
    fun en cap => by simp [automix_get_all_channel_metering],
    fun onull cap => rfl,
    fun en cap => rfl⟩

/-- Claim C8: create clamping and failure — `automix_create` clamps the
channel count into `[1, 32]` (0 becomes 1, anything above 32 becomes 32,
in-range counts are kept), returns a working engine whenever allocation
succeeds, and returns a null handle exactly when allocation fails. -/
theorem claim_create_clamping (n : ℕ) (fs : ℚ) (mb : ℕ) :
    automix_create n fs mb true = some (Engine.init (clampChannels n) fs mb) ∧
    1 ≤ clampChannels n ∧ clampChannels n ≤ 32 ∧
    clampChannels 0 = 1 ∧
    (32 < n → clampChannels n = 32) ∧
    (1 ≤ n → n ≤ 32 → clampChannels n = n) ∧
    automix_create n fs mb false = none ∧
    (automix_create n fs mb true).isSome = true := by
  refine ⟨rfl, ?_, ?_, rfl, ?_, ?_, rfl, rfl⟩ <;>
    simp [clampChannels, maxChannelsC] <;> omega

/-- Claim C8 witness: 100 channels clamp to 32 and 5 channels are kept. -/
theorem claim_create_clamping_witness :
    (32 < 100 ∧ clampChannels 100 = 32) ∧
    (1 ≤ 5 ∧ 5 ≤ 32 ∧ clampChannels 5 = 5) :=
  ⟨⟨by norm_num, (claim_create_clamping 100 48000 256).2.2.2.2.1 (by norm_num)⟩,
    ⟨by norm_num, by norm_num,
      (claim_create_clamping 5 48000 256).2.2.2.2.2.1 (by norm_num) (by norm_num)⟩⟩

/-- Claim C9: channel-count mismatch at the FFI boundary — calling
`automix_process` with more channels than the engine owns processes at
most the first `numChannels` buffers and leaves every sample of every
buffer with index at or above `numChannels` exactly as given. -/
theorem claim_channel_mismatch (en : Engine) (b : Buf) (nCh nS ch k : ℕ)
    (_hN : en.numChannels < nCh) (hch : en.numChannels ≤ ch) :
    ((automix_process (some en) (some b) nCh nS).2.getD (fun _ _ => FV.nan)) ch k
      = b ch k := by
  unfold automix_process
  simp only [Option.getD_some]
  exact processBlock_untouched en b nCh nS ch k hch

/-- Claim C9 witness: a 2-channel engine called with 4 buffers leaves
buffer 3 untouched. -/
theorem claim_channel_mismatch_witness :
    (Engine.init 2 48000 256).numChannels < 4 ∧
    ((automix_process (some (Engine.init 2 48000 256))
        (some (fun _ _ => FV.num (1 / 2))) 4 8).2.getD
        (fun _ _ => FV.nan)) 3 0 = FV.num (1 / 2) :=
  ⟨by decide, claim_channel_mismatch (Engine.init 2 48000 256) (fun _ _ => FV.num (1 / 2)) 4 8 3 0
      (by decide) (by decide)⟩

end Automix
